import Mathlib

/-!
Verification of the StacksOrbit contract discovery, categorization and
deployment-ordering pipeline (`src/enhanced_auto_detector.py`, class
`GenericStacksAutoDetector`).

The Python code is shallowly embedded: every dict the code builds becomes a
Lean structure, Python's `dict.get(key, default)` becomes `Option.getD`,
Python truthiness of a string key becomes an emptiness test, and the Python
`set` is modelled as an insertion-ordered duplicate-free list (`pySetAdd`),
whose specification is membership.  Filesystem interaction (the results of
`pathlib.Path.glob` on the four fixed patterns and of reading a file's
bytes) is passed in as explicit data.
-/

namespace StacksOrbit

/-! ### Python's `in` operator on strings -/

/-- Boolean test that the list `p` occurs as a contiguous sublist of the
second argument (the semantics of Python's `pat in s` on strings). -/
def subListOf (p : List Char) : List Char → Bool
  | [] => p.isEmpty
  | a :: t => p.isPrefixOf (a :: t) || subListOf p t

/-- Python's `pat in s` for strings: `pat` occurs as a substring of `s`. -/
def strContains (s pat : String) : Bool :=
  subListOf pat.toList s.toList

/-- Python's `str.lower` over the string's characters (the contract names
and keywords involved are ASCII, where `Char.toLower` agrees with
Python). -/
def pyLower (s : String) : String :=
  String.mk (s.data.map Char.toLower)

/-- Python's `str.startswith`. -/
def pyStartsWith (s pre : String) : Bool :=
  pre.data.isPrefixOf s.data

/-- Python's `str.endswith`. -/
def pyEndsWith (s suf : String) : Bool :=
  suf.data.isSuffixOf s.data

/-- Split a character list at every occurrence of a separator character
(Python's `str.split(sep)`; the pieces do not keep the separator). -/
def splitOnChar (sep : Char) : List Char → List (List Char)
  | [] => [[]]
  | c :: t =>
    let r := splitOnChar sep t
    if c == sep then [] :: r
    else
      match r with
      | [] => [[c]]
      | h :: r2 => (c :: h) :: r2

/-! ### The category table (`_load_contract_categories`, generic mode)

The dict literal of `_load_contract_categories` with `use_conxian_mode =
False`, in its Python insertion order (Python dicts iterate in insertion
order). -/

def contractCategories : List (String × List String) :=
  [("traits",
    ["trait", "traits", "interfaces", "interface",
     "sip-009", "sip-010", "sip-013", "sip-018"]),
   ("tokens",
    ["token", "ft", "nft", "fungible", "non-fungible",
     "mint", "burn", "transfer", "balance", "supply"]),
   ("defi",
    ["dex", "swap", "pool", "liquidity", "amm",
     "router", "factory", "pair", "vault", "staking",
     "farming", "yield", "rewards", "governance"]),
   ("oracle",
    ["oracle", "price", "feed", "aggregator", "adapter",
     "btc", "usd", "eth", "chainlink", "pyth"]),
   ("dao",
    ["dao", "governance", "proposal", "vote", "voting",
     "timelock", "upgrade", "admin", "owner", "controller"]),
   ("security",
    ["auth", "access", "control", "circuit", "breaker",
     "pause", "pausable", "rate", "limit", "emergency"]),
   ("utilities",
    ["utils", "util", "helper", "library", "lib",
     "math", "string", "encoding", "crypto", "hash"]),
   ("testing",
    ["test", "mock", "fake", "simulator", "debug"])]

/-- Translation of `_determine_contract_category`: lowercase the name,
iterate the category table in definition order, return the first category
one of whose keywords is a substring of the lowered name, else
`"general"`. -/
def determineContractCategory (contract_name : String) : String :=
  let name_lower := pyLower contract_name
  match contractCategories.find?
      (fun cp => cp.2.any (fun pat => strContains name_lower pat)) with
  | some cp => cp.1
  | none => "general"

/-! ### Contract descriptors and the deployment-order sorter -/

/-- A contract descriptor dict as built by the discovery methods.  `name`
is `none` when the dict has no `name` key (`dict.get('name')` returns
`None` there); the remaining modelled keys always hold strings, with the
absent key modelled as `""`. -/
structure Contract where
  name : Option String
  path : String := ""
  source : String := ""
  category : String := ""
deriving Repr, DecidableEq, Inhabited

/-- An element of the Python list handed to
`_sort_contracts_by_generic_dependencies`: `None`, some non-dict value, or
a descriptor dict. -/
inductive Entry where
  | pyNone : Entry
  | nonDict : Entry
  | dict : Contract → Entry
deriving Repr, DecidableEq

/-- The filter `c and isinstance(c, dict) and c.get('name')` of
`_sort_contracts_by_generic_dependencies`: keeps a dict whose `name` key
holds a non-empty string. -/
def entryValid : Entry → Option Contract
  | .dict c =>
    match c.name with
    | some s => if s = "" then none else some c
    | none => none
  | _ => none

/-- The flat `priority_order` list of
`_sort_contracts_by_generic_dependencies`, verbatim. -/
def priorityOrder : List String :=
  ["trait", "traits", "interface", "interfaces",
   "sip-009", "sip-010", "sip-013", "sip-018",
   "utils", "util", "helper", "library", "lib",
   "math", "string", "encoding", "crypto", "hash",
   "error", "constants", "types",
   "core", "main", "principal", "registry", "manager",
   "token", "ft", "nft", "fungible", "non-fungible",
   "mint", "burn", "transfer", "balance", "supply",
   "dex", "swap", "pool", "liquidity", "amm", "router", "factory",
   "pair", "vault", "staking", "farming", "yield", "rewards",
   "oracle", "price", "feed", "aggregator", "adapter",
   "dao", "governance", "proposal", "vote", "voting",
   "timelock", "upgrade", "admin", "owner", "controller",
   "auth", "access", "control", "circuit", "breaker",
   "pause", "pausable", "rate", "limit", "emergency",
   "monitor", "analytics", "metrics", "dashboard",
   "test", "mock", "fake", "simulator", "debug"]

/-- Index of the first keyword of the list that is a substring of `nl`
(the `for i, priority in enumerate(priority_order)` loop). -/
def firstKeywordIdx (nl : String) : List String → Option Nat
  | [] => none
  | kw :: rest =>
    if strContains nl kw then some 0
    else (firstKeywordIdx nl rest).map (· + 1)

/-- Translation of the inner `get_priority` of
`_sort_contracts_by_generic_dependencies`. -/
def getPriority (contract : Contract) : Nat :=
  let name := contract.name.getD ""
  if name = "" then priorityOrder.length
  else
    match firstKeywordIdx (pyLower name) priorityOrder with
    | some i => i
    | none => priorityOrder.length

/-- The comparison handed to the stable sort: ascending `get_priority`. -/
def priorityLE (a b : Contract) : Bool :=
  decide (getPriority a ≤ getPriority b)

/-- Translation of `_sort_contracts_by_generic_dependencies`: early return
on an empty input, filter out invalid entries, early return when nothing
valid remains, then Python's stable `sorted(valid_contracts,
key=get_priority)` (modelled by `List.mergeSort`, which is stable). -/
def sortContractsByGenericDependencies (contracts : List Entry) : List Contract :=
  if contracts.isEmpty then []
  else
    let valid_contracts := contracts.filterMap entryValid
    if valid_contracts.isEmpty then []
    else valid_contracts.mergeSort priorityLE

/-- The same function applied to a list that is already a list of
descriptor dicts (how the discovery pipeline and the plan generator call
it). -/
def sortContractList (contracts : List Contract) : List Contract :=
  sortContractsByGenericDependencies (contracts.map Entry.dict)

/-! ### Directory and project-structure scanning

The filesystem is modelled as the list of relative paths (strings, with
`/` separators) of the files under the project directory.  `globMatch`
models `pathlib.Path.glob` for exactly the fixed patterns the code uses:
`**` matches zero or more directory levels, so e.g. `contracts/**/*.clar`
matches every path under `contracts/` ending in `.clar`. -/

/-- Model of `directory.glob(pattern)` membership for the fixed patterns of
`_generic_directory_scan`. -/
def globMatch (pat : String) (path : String) : Bool :=
  if pat = "contracts/**/*.clar" then
    pyStartsWith path "contracts/" && pyEndsWith path ".clar"
  else if pat = "clarinet/contracts/**/*.clar" then
    pyStartsWith path "clarinet/contracts/" && pyEndsWith path ".clar"
  else if pat = "src/**/*.clar" then
    pyStartsWith path "src/" && pyEndsWith path ".clar"
  else if pat = "**/*.clar" then
    pyEndsWith path ".clar"
  else false

/-- `pathlib.PurePath.stem`: the final path component without its last
extension (a leading-dot-only name keeps its dot, as in Python). -/
def pathStem (path : String) : String :=
  let base := (splitOnChar '/' path.data).getLastD []
  match splitOnChar '.' base with
  | [] => String.mk base
  | [_] => String.mk base
  | [[], _] => String.mk base
  | parts => String.mk (List.intercalate ['.'] parts.dropLast)

/-- The descriptor dict built for a scanned `.clar` file (both
`_generic_directory_scan` and `_scan_project_structures` build this shape;
`size`, `modified` and `hash` are not modelled — no claim mentions them). -/
def mkScannedContract (srcDescription : String) (path : String) : Contract :=
  { name := some (pathStem path),
    path := path,
    source := srcDescription,
    category := determineContractCategory (pathStem path) }

/-- The `scan_patterns` list of `_generic_directory_scan`, verbatim. -/
def scanPatterns : List (String × String) :=
  [("contracts/**/*.clar", "contracts directory"),
   ("clarinet/contracts/**/*.clar", "clarinet contracts"),
   ("src/**/*.clar", "src directory"),
   ("**/*.clar", "any .clar files")]

/-- Translation of `_generic_directory_scan`: for each pattern in order,
append one descriptor per matching file.  A file matching several patterns
yields several descriptors — the function itself does not deduplicate. -/
def genericDirectoryScan (files : List String) : List Contract :=
  (scanPatterns.map
    (fun pd => (files.filter (globMatch pd.1)).map (mkScannedContract pd.2))).flatten

/-- The `structures` list of `_scan_project_structures`, verbatim. -/
def projectStructures : List (String × String) :=
  [("clarinet", "Clarinet project structure"),
   ("contracts", "Standard contracts directory"),
   ("src/contracts", "Source contracts"),
   ("packages", "Monorepo packages"),
   ("tests/contracts", "Test contracts")]

/-- Model of `structure_path.rglob("*.clar")` membership: the file lies
under the structure directory and ends in `.clar`. -/
def structMatch (dir : String) (path : String) : Bool :=
  pyStartsWith path (dir ++ "/") && pyEndsWith path ".clar"

/-- Translation of `_scan_project_structures`. -/
def scanProjectStructures (files : List String) : List Contract :=
  (projectStructures.map
    (fun sd => (files.filter (structMatch sd.1)).map (mkScannedContract sd.2))).flatten

/-! ### Deployment manifests -/

/-- One entry of a manifest's `deployment.successful` list; `dict.get`
with no default makes both keys optional. -/
structure DeployedRecord where
  name : Option String := none
  tx_id : Option String := none
deriving Repr, DecidableEq

/-- One deployment-manifest JSON artifact, as the code reads it:
`successful = data['deployment']['successful']` when both keys are
present (`none` otherwise), plus the artifact's file path. -/
structure ManifestData where
  path : String := ""
  successful : Option (List DeployedRecord) := none
deriving Repr, DecidableEq

/-- The record `_parse_deployment_manifests` appends per successful
contract (informational only — it is not a `Contract` descriptor). -/
structure ManifestRecord where
  name : String
  tx_id : String
  source : String
  path : String
deriving Repr, DecidableEq

/-- Translation of `_parse_deployment_manifests`, over the parsed JSON
artifacts found by its glob patterns. -/
def parseDeploymentManifests (manifests : List ManifestData) : List ManifestRecord :=
  (manifests.map (fun m =>
    match m.successful with
    | some cs => cs.map (fun c =>
        { name := c.name.getD "", tx_id := c.tx_id.getD "",
          source := "deployment_manifest", path := m.path })
    | none => [])).flatten

/-- Translation of `_categorize_contracts`: add the `category` key where
it is missing (a missing key is modelled as `""`; every discovery method
in this file sets it, so this is the identity on their output). -/
def categorizeContracts (contracts : List Contract) : List Contract :=
  contracts.map (fun c =>
    if c.category = "" then
      { c with category := determineContractCategory (c.name.getD "") }
    else c)

/-- Translation of `_comprehensive_generic_contract_detection` (cache
aside): method 1 is the Clarinet.toml parse, whose descriptor list is
passed in; methods 2 and 4 scan `files`, each filtered against the names
already collected before that method ran; method 3 parses deployment
manifests for reporting only; then categorize and sort. -/
def comprehensiveGenericContractDetection (clarinetContracts : List Contract)
    (files : List String) (manifests : List ManifestData) : List Contract :=
  let contracts := clarinetContracts
  let directoryContracts := genericDirectoryScan files
  let names1 := contracts.map (·.name)
  let contracts := contracts ++
    directoryContracts.filter (fun c => !(names1.contains c.name))
  let _manifestRecords := parseDeploymentManifests manifests
  let projectContracts := scanProjectStructures files
  let names2 := contracts.map (·.name)
  let contracts := contracts ++
    projectContracts.filter (fun c => !(names2.contains c.name))
  sortContractList (categorizeContracts contracts)

/-! ### Deployment-status reconciler -/

/-- The dict returned by `_check_local_deployment_status` (the fields a
claim touches): `has_local_history = len(deployment_history) > 0` and the
parsed local manifest artifacts. -/
structure LocalStatus where
  has_local_history : Bool := false
  manifests : List ManifestData := []
deriving Repr

/-- The dict returned by `_check_blockchain_deployment_status`: both keys
are absent in its `no_config` / `no_network` answers, hence optional. -/
structure BlockchainStatus where
  account_nonce : Option Nat := none
  deployed_contracts : Option (List String) := none
deriving Repr

/-- Translation of `_determine_deployment_mode`. -/
def determineDeploymentMode (local_status : LocalStatus)
    (blockchain_status : BlockchainStatus) : String :=
  if blockchain_status.account_nonce.getD 0 > 0 then "upgrade"
  else if local_status.has_local_history then "incremental"
  else "full"

/-- Python `set.add` modelled on an insertion-ordered duplicate-free list:
the set's specification is membership. -/
def pySetAdd (s : List (Option String)) (x : Option String) : List (Option String) :=
  if s.contains x then s else s ++ [x]

/-- Translation of `_get_contracts_to_skip`: names from the blockchain
status's deployed-contract list (strings, injected as `some`), then
`contract.get('name')` (possibly `None`) of every entry of every local
manifest's `deployment.successful` list. -/
def getContractsToSkip (local_status : LocalStatus)
    (blockchain_status : BlockchainStatus) : List (Option String) :=
  let skip1 := (blockchain_status.deployed_contracts.getD []).foldl
    (fun s n => pySetAdd s (some n)) []
  local_status.manifests.foldl
    (fun s m => (m.successful.getD []).foldl (fun s c => pySetAdd s c.name) s)
    skip1

/-- Translation of `_get_contracts_to_deploy`: the names of the cached
discovered contracts minus the skip set. -/
def getContractsToDeploy (cachedContracts : List Contract)
    (local_status : LocalStatus) (blockchain_status : BlockchainStatus) :
    List (Option String) :=
  let all_contract_names := cachedContracts.foldl (fun s c => pySetAdd s c.name) []
  let skip_contracts := getContractsToSkip local_status blockchain_status
  all_contract_names.filter (fun n => !(skip_contracts.contains n))

/-! ### Deployment plan -/

/-- The `deployment_analysis` dict fields `_generate_generic_deployment_plan`
reads. -/
structure DeploymentAnalysis where
  deployment_mode : String
  contracts_to_skip : List (Option String)
  contracts_to_deploy : List (Option String)
deriving Repr

/-- The plan dict (the float `estimated_gas` field is not modelled —
floating point; no claim mentions it). -/
structure DeploymentPlan where
  deployment_mode : String
  total_contracts : Nat
  contracts_to_deploy : Nat
  contracts_to_skip : Nat
  filtered_contracts : List Contract
  deployment_order : List (Option String)
  estimated_time : Nat
deriving Repr

/-- Translation of `_estimate_deployment_time`: two minutes per contract,
one extra per `defi`/`dao` contract, minimum five. -/
def estimateDeploymentTime (contracts : List Contract) : Nat :=
  let total := contracts.length * 2 +
    (contracts.filter (fun c => c.category == "defi" || c.category == "dao")).length
  max total 5

/-- Translation of `_generate_generic_deployment_plan`: only under
`"upgrade"` mode are skip-listed names filtered out of the plan's contract
list; then the list is sorted. -/
def generateGenericDeploymentPlan (contracts : List Contract)
    (analysis : DeploymentAnalysis) : DeploymentPlan :=
  let filtered :=
    if analysis.deployment_mode = "upgrade" then
      contracts.filter (fun c => !(analysis.contracts_to_skip.contains c.name))
    else contracts
  let filtered := sortContractList filtered
  { deployment_mode := analysis.deployment_mode,
    total_contracts := contracts.length,
    contracts_to_deploy := analysis.contracts_to_deploy.length,
    contracts_to_skip := analysis.contracts_to_skip.length,
    filtered_contracts := filtered,
    deployment_order := filtered.map (·.name),
    estimated_time := estimateDeploymentTime filtered }

/-! ### Clarinet.toml analysis -/

/-- The analysis dict of `_analyze_clarinet_toml` /
`_analyze_clarinet_toml_manually` (`exists` is a reserved-feeling Python
key; here `file_found`). -/
structure ClarinetAnalysis where
  file_found : Bool
  version : String
  compatible : Bool
  issues : List String
  contracts : Nat
  dependencies : List String
deriving Repr, DecidableEq

/-- The parsed TOML data `_analyze_clarinet_toml` reads when a TOML
library is importable. -/
structure TomlData where
  contracts : List String := []
  dependencies : List String := []
deriving Repr

/-- Count of the regex matches `\[contracts\.([^\]]+)\]` used by the
manual analysis (modelled as the number of `[contracts.` section openers
that are closed by a `]`). -/
def countContractSections (content : String) : Nat :=
  (((content.splitOn "[contracts.").drop 1).filter
    (fun rest => (rest.splitOn "]").length > 1)).length

/-- Translation of `_analyze_clarinet_toml_manually`: the body fills an
`analysis` dict (contract-section count, missing-`[project]` issue) but
the function has NO return statement, so Python returns `None`.  The
computed dict is bound and discarded, exactly as the interpreter does. -/
def analyzeClarinetTomlManually (content : String) : Option ClarinetAnalysis :=
  let _analysis : ClarinetAnalysis :=
    { file_found := true,
      version := "manual_parse",
      compatible := true,
      issues := if strContains content "[project]" then []
                else ["Missing [project] section"],
      contracts := countContractSections content,
      dependencies := [] }
  none

/-- Translation of `_analyze_clarinet_toml`: default answer when
`Clarinet.toml` does not exist; a filled analysis when a TOML library is
importable (`_validate_sdk_compatibility` always returns `True`); the
manual fallback otherwise. -/
def analyzeClarinetToml (clarinet_toml_found : Bool) (toml_lib_available : Bool)
    (toml_data : TomlData) (raw_content : String) : Option ClarinetAnalysis :=
  if !clarinet_toml_found then
    some { file_found := false, version := "unknown", compatible := true,
           issues := [], contracts := 0, dependencies := [] }
  else if toml_lib_available then
    some { file_found := true, version := "unknown", compatible := true,
           issues := [], contracts := toml_data.contracts.length,
           dependencies := toml_data.dependencies }
  else analyzeClarinetTomlManually raw_content

/-! ### Content hashing (`_calculate_file_hash`)

`hashlib.md5(f.read()).hexdigest()` embedded per RFC 1321 over byte lists,
with 32-bit words as `Nat` reduced `% 2^32`. -/

/-- Two to the thirty-two: the word modulus of MD5. -/
def w32 : Nat := 4294967296

/-- Rotate the low 32 bits of `x` left by `n`. -/
def leftRotate (x n : Nat) : Nat :=
  ((x <<< n) ||| (x >>> (32 - n))) % w32

/-- The 64 MD5 round constants `floor(2^32 * |sin(i+1)|)`. -/
def md5K : List Nat :=
  [0xd76aa478, 0xe8c7b756, 0x242070db, 0xc1bdceee, 0xf57c0faf, 0x4787c62a, 0xa8304613, 0xfd469501,
   0x698098d8, 0x8b44f7af, 0xffff5bb1, 0x895cd7be, 0x6b901122, 0xfd987193, 0xa679438e, 0x49b40821,
   0xf61e2562, 0xc040b340, 0x265e5a51, 0xe9b6c7aa, 0xd62f105d, 0x02441453, 0xd8a1e681, 0xe7d3fbc8,
   0x21e1cde6, 0xc33707d6, 0xf4d50d87, 0x455a14ed, 0xa9e3e905, 0xfcefa3f8, 0x676f02d9, 0x8d2a4c8a,
   0xfffa3942, 0x8771f681, 0x6d9d6122, 0xfde5380c, 0xa4beea44, 0x4bdecfa9, 0xf6bb4b60, 0xbebfbc70,
   0x289b7ec6, 0xeaa127fa, 0xd4ef3085, 0x04881d05, 0xd9d4d039, 0xe6db99e5, 0x1fa27cf8, 0xc4ac5665,
   0xf4292244, 0x432aff97, 0xab9423a7, 0xfc93a039, 0x655b59c3, 0x8f0ccc92, 0xffeff47d, 0x85845dd1,
   0x6fa87e4f, 0xfe2ce6e0, 0xa3014314, 0x4e0811a1, 0xf7537e82, 0xbd3af235, 0x2ad7d2bb, 0xeb86d391]

/-- The 64 MD5 per-round left-rotation amounts. -/
def md5S : List Nat :=
  [7, 12, 17, 22, 7, 12, 17, 22, 7, 12, 17, 22, 7, 12, 17, 22,
   5, 9, 14, 20, 5, 9, 14, 20, 5, 9, 14, 20, 5, 9, 14, 20,
   4, 11, 16, 23, 4, 11, 16, 23, 4, 11, 16, 23, 4, 11, 16, 23,
   6, 10, 15, 21, 6, 10, 15, 21, 6, 10, 15, 21, 6, 10, 15, 21]

/-- The running MD5 state: four 32-bit words. -/
structure MD5State where
  a : Nat
  b : Nat
  c : Nat
  d : Nat
deriving Repr, DecidableEq

/-- The MD5 initial state. -/
def md5Init : MD5State :=
  { a := 0x67452301, b := 0xefcdab89, c := 0x98badcfe, d := 0x10325476 }

/-- One of the 64 MD5 rounds over the 16 message words `M`. -/
def md5Round (M : List Nat) (st : MD5State) (i : Nat) : MD5State :=
  let notW := fun x => 0xffffffff ^^^ x
  let fg : Nat × Nat :=
    if i < 16 then ((st.b &&& st.c) ||| (notW st.b &&& st.d), i)
    else if i < 32 then ((st.d &&& st.b) ||| (notW st.d &&& st.c), (5 * i + 1) % 16)
    else if i < 48 then (st.b ^^^ st.c ^^^ st.d, (3 * i + 5) % 16)
    else (st.c ^^^ (st.b ||| notW st.d), (7 * i) % 16)
  let fv := (fg.1 + st.a + md5K.getD i 0 + M.getD fg.2 0) % w32
  { a := st.d,
    b := (st.b + leftRotate fv (md5S.getD i 0)) % w32,
    c := st.b,
    d := st.c }

/-- Process one 64-byte chunk: decode 16 little-endian words, run the 64
rounds, add the result into the state word-wise mod `2^32`. -/
def md5ProcessChunk (st : MD5State) (chunk : List Nat) : MD5State :=
  let M := (List.range 16).map (fun j =>
    chunk.getD (4 * j) 0 + 256 * chunk.getD (4 * j + 1) 0 +
    65536 * chunk.getD (4 * j + 2) 0 + 16777216 * chunk.getD (4 * j + 3) 0)
  let r := (List.range 64).foldl (md5Round M) st
  { a := (st.a + r.a) % w32, b := (st.b + r.b) % w32,
    c := (st.c + r.c) % w32, d := (st.d + r.d) % w32 }

/-- MD5 padding: append `0x80`, zero bytes up to 56 mod 64, then the bit
length as eight little-endian bytes (mod `2^64`). -/
def md5Pad (msg : List Nat) : List Nat :=
  let lenBits := (8 * msg.length) % (2 ^ 64)
  msg ++ [128] ++ List.replicate ((119 - msg.length % 64) % 64) 0 ++
    (List.range 8).map (fun j => lenBits / 256 ^ j % 256)

/-- Split an already-padded message into its 64-byte chunks. -/
def md5Chunks (padded : List Nat) : List (List Nat) :=
  (List.range (padded.length / 64)).map (fun i => (padded.drop (64 * i)).take 64)

/-- The four state words as sixteen little-endian digest bytes. -/
def wordLEBytes (w : Nat) : List Nat :=
  [w % 256, w / 256 % 256, w / 65536 % 256, w / 16777216 % 256]

/-- The sixteen digest bytes of a byte list (inputs reduced `% 256`, as
Python bytes are). -/
def md5DigestBytes (msg : List Nat) : List Nat :=
  let st := (md5Chunks (md5Pad (msg.map (· % 256)))).foldl md5ProcessChunk md5Init
  wordLEBytes st.a ++ wordLEBytes st.b ++ wordLEBytes st.c ++ wordLEBytes st.d

/-- One lowercase hexadecimal digit. -/
def hexDigit (n : Nat) : Char :=
  if n < 10 then Char.ofNat (48 + n) else Char.ofNat (87 + n)

/-- A byte as exactly two lowercase hexadecimal characters. -/
def hexByte (b : Nat) : List Char :=
  [hexDigit (b / 16 % 16), hexDigit (b % 16)]

/-- `hashlib.md5(bytes).hexdigest()`. -/
def md5Hex (msg : List Nat) : String :=
  String.mk (((md5DigestBytes msg).map hexByte).flatten)

/-- Translation of `_calculate_file_hash`: the outcome of reading the
file's bytes is passed in (`none` models any exception while opening or
reading); a failed read yields the sentinel `"unknown"`. -/
def calculateFileHash (read_result : Option (List Nat)) : String :=
  match read_result with
  | some file_bytes => md5Hex file_bytes
  | none => "unknown"

/-! ## Helper lemmas -/

theorem mem_pySetAdd {s : List (Option String)} {x y : Option String} :
    x ∈ pySetAdd s y ↔ x ∈ s ∨ x = y := by
  unfold pySetAdd
  split
  · rename_i h
    constructor
    · exact Or.inl
    · rintro (hx | rfl)
      · exact hx
      · simpa using h
  · simp

theorem mem_foldl_pySetAdd {β : Type} (f : β → Option String) (l : List β) :
    ∀ (init : List (Option String)) (x : Option String),
      x ∈ l.foldl (fun s y => pySetAdd s (f y)) init ↔
        x ∈ init ∨ ∃ y ∈ l, f y = x := by
  induction l with
  | nil => simp
  | cons a t ih =>
    intro init x
    simp only [List.foldl_cons, ih, mem_pySetAdd, List.mem_cons]
    constructor
    · rintro ((hx | rfl) | ⟨y, hy, rfl⟩)
      · exact Or.inl hx
      · exact Or.inr ⟨a, Or.inl rfl, rfl⟩
      · exact Or.inr ⟨y, Or.inr hy, rfl⟩
    · rintro (hx | ⟨y, (rfl | hy), rfl⟩)
      · exact Or.inl (Or.inl hx)
      · exact Or.inl (Or.inr rfl)
      · exact Or.inr ⟨y, hy, rfl⟩

theorem mem_manifests_fold (manifests : List ManifestData) :
    ∀ (init : List (Option String)) (x : Option String),
      x ∈ manifests.foldl
          (fun s m => (m.successful.getD []).foldl (fun s c => pySetAdd s c.name) s)
          init ↔
        x ∈ init ∨ ∃ m ∈ manifests, ∃ c ∈ m.successful.getD [], c.name = x := by
  induction manifests with
  | nil => simp
  | cons m t ih =>
    intro init x
    simp only [List.foldl_cons, ih, mem_foldl_pySetAdd DeployedRecord.name,
      List.mem_cons]
    constructor
    · rintro ((hx | ⟨c, hc, rfl⟩) | ⟨m2, hm2, c, hc, rfl⟩)
      · exact Or.inl hx
      · exact Or.inr ⟨m, Or.inl rfl, c, hc, rfl⟩
      · exact Or.inr ⟨m2, Or.inr hm2, c, hc, rfl⟩
    · rintro (hx | ⟨m2, (rfl | hm2), c, hc, rfl⟩)
      · exact Or.inl (Or.inl hx)
      · exact Or.inl (Or.inr ⟨c, hc, rfl⟩)
      · exact Or.inr ⟨m2, hm2, c, hc, rfl⟩

theorem entryValid_dict_none_or_self (c : Contract) :
    entryValid (Entry.dict c) = none ∨ entryValid (Entry.dict c) = some c := by
  cases hn : c.name with
  | none => simp [entryValid, hn]
  | some s => by_cases h : s = "" <;> simp [entryValid, hn, h]

theorem filterMap_sublist_of_none_or_self {α : Type} (f : α → Option α)
    (hf : ∀ a, f a = none ∨ f a = some a) :
    ∀ l : List α, List.Sublist (l.filterMap f) l := by
  intro l
  induction l with
  | nil => simp
  | cons a t ih =>
    rcases hf a with h | h
    · simpa [List.filterMap_cons, h] using ih.cons a
    · simpa [List.filterMap_cons, h] using ih.cons₂ a

theorem filterMap_eq_self_of {α : Type} (f : α → Option α) (l : List α)
    (h : ∀ a ∈ l, f a = some a) : l.filterMap f = l := by
  induction l with
  | nil => rfl
  | cons a t ih =>
    simp [List.filterMap_cons, h a (by simp),
      ih (fun b hb => h b (by simp [hb]))]

theorem sortCBGD_perm (entries : List Entry) :
    (sortContractsByGenericDependencies entries).Perm
      (entries.filterMap entryValid) := by
  unfold sortContractsByGenericDependencies
  by_cases h : entries.isEmpty
  · simp [h, List.isEmpty_iff.mp h]
  · simp only [h, Bool.false_eq_true, if_false]
    by_cases h2 : (entries.filterMap entryValid).isEmpty
    · simp [h2, List.isEmpty_iff.mp h2]
    · simp only [h2, Bool.false_eq_true, if_false]
      exact List.mergeSort_perm _ _

theorem sortContractList_perm {l : List Contract}
    (h : ∀ c ∈ l, entryValid (Entry.dict c) = some c) :
    (sortContractList l).Perm l := by
  have hp := sortCBGD_perm (l.map Entry.dict)
  rw [sortContractList]
  rw [List.filterMap_map] at hp
  rwa [filterMap_eq_self_of (entryValid ∘ Entry.dict) l (fun a ha => h a ha)] at hp

/-! ## C1: the categorizer -/

theorem contractCategories_fst_ne_general :
    ∀ cp ∈ contractCategories, cp.1 ≠ "general" := by decide

theorem determineContractCategory_eq_general_iff (name : String) :
    determineContractCategory name = "general" ↔
      ∀ cp ∈ contractCategories, ∀ kw ∈ cp.2,
        strContains (pyLower name) kw = false := by
  simp only [determineContractCategory]
  cases hf : contractCategories.find?
      (fun cp => cp.2.any fun pat => strContains (pyLower name) pat) with
  | none =>
    rw [List.find?_eq_none] at hf
    constructor
    · intro _ cp hcp kw hkw
      have h := hf cp hcp
      simp only [List.any_eq_true, not_exists, not_and, Bool.not_eq_true] at h
      exact h kw hkw
    · intro _
      rfl
  | some cp =>
    constructor
    · intro h
      exact absurd h
        (contractCategories_fst_ne_general cp (List.mem_of_find?_eq_some hf))
    · intro hall
      exfalso
      have hp := List.find?_some hf
      simp only [List.any_eq_true] at hp
      obtain ⟨kw, hkw, hc⟩ := hp
      have h0 := hall cp (List.mem_of_find?_eq_some hf) kw hkw
      rw [h0] at hc
      exact Bool.false_ne_true hc

theorem determineContractCategory_traits_of_keyword (name kw : String)
    (hkw : kw ∈ ["trait", "traits", "interfaces", "interface",
                 "sip-009", "sip-010", "sip-013", "sip-018"])
    (hc : strContains (pyLower name) kw = true) :
    determineContractCategory name = "traits" := by
  have hpos : (["trait", "traits", "interfaces", "interface",
      "sip-009", "sip-010", "sip-013", "sip-018"] : List String).any
        (fun pat => strContains (pyLower name) pat) = true := by
    simp only [List.any_eq_true]
    exact ⟨kw, hkw, hc⟩
  simp [determineContractCategory, contractCategories, hpos]

/-- C1: the categorizer lowercases the name and scans the category table
in definition order: the answer is `general` exactly when no keyword of
any category occurs in the lowered name; any name containing a keyword of
the `traits` row (the table's first row) is `traits`, even when keywords
of later rows also occur; concretely, `my-trait-token` contains a `tokens`
keyword yet is categorized `traits`. -/
theorem categorizer_first_match_spec :
    (∀ name : String, determineContractCategory name = "general" ↔
      ∀ cp ∈ contractCategories, ∀ kw ∈ cp.2,
        strContains (pyLower name) kw = false) ∧
    (∀ name kw : String,
      kw ∈ ["trait", "traits", "interfaces", "interface",
            "sip-009", "sip-010", "sip-013", "sip-018"] →
      strContains (pyLower name) kw = true →
      determineContractCategory name = "traits") ∧
    (determineContractCategory "my-trait-token" = "traits" ∧
     strContains "my-trait-token" "token" = true ∧
     determineContractCategory "my-token" = "tokens" ∧
     determineContractCategory "zzz" = "general") :=
  ⟨determineContractCategory_eq_general_iff,
   determineContractCategory_traits_of_keyword,
   by decide, by decide, by decide, by decide⟩

/-! ## C2: the deployment-order sorter -/

theorem firstKeywordIdx_eq_none (nl : String) :
    ∀ l : List String, (∀ kw ∈ l, strContains nl kw = false) →
      firstKeywordIdx nl l = none := by
  intro l
  induction l with
  | nil => intro _; rfl
  | cons a t ih =>
    intro h
    simp [firstKeywordIdx, h a (by simp),
      ih (fun kw hk => h kw (by simp [hk]))]

theorem firstKeywordIdx_eq_some (nl : String) :
    ∀ (l : List String) (i : Nat) (kw : String),
      l[i]? = some kw → strContains nl kw = true →
      (∀ j kw2, j < i → l[j]? = some kw2 → strContains nl kw2 = false) →
      firstKeywordIdx nl l = some i := by
  intro l
  induction l with
  | nil =>
    intro i kw h1
    simp at h1
  | cons a t ih =>
    intro i kw h1 h2 h3
    cases i with
    | zero =>
      rw [List.getElem?_cons_zero] at h1
      cases h1
      simp [firstKeywordIdx, h2]
    | succ j =>
      have ha : strContains nl a = false :=
        h3 0 a (Nat.succ_pos j) List.getElem?_cons_zero
      rw [List.getElem?_cons_succ] at h1
      have h3' : ∀ k kw2, k < j → t[k]? = some kw2 →
          strContains nl kw2 = false := by
        intro k kw2 hk hkk
        exact h3 (k + 1) kw2 (Nat.succ_lt_succ hk)
          (by rw [List.getElem?_cons_succ]; exact hkk)
      simp [firstKeywordIdx, ha, ih j kw h1 h2 h3']

theorem priorityOrder_no_empty_match :
    ∀ kw ∈ priorityOrder, strContains "" kw = false := by decide

theorem getPriority_eq_length_of_no_match (c : Contract)
    (h : ∀ kw ∈ priorityOrder,
      strContains (pyLower (c.name.getD "")) kw = false) :
    getPriority c = priorityOrder.length := by
  simp only [getPriority]
  by_cases hn : c.name.getD "" = ""
  · rw [if_pos hn]
  · rw [if_neg hn, firstKeywordIdx_eq_none _ _ h]

theorem getPriority_eq_first_match (c : Contract) (i : Nat) (kw : String)
    (h1 : priorityOrder[i]? = some kw)
    (h2 : strContains (pyLower (c.name.getD "")) kw = true)
    (h3 : ∀ j kw2, j < i → priorityOrder[j]? = some kw2 →
      strContains (pyLower (c.name.getD "")) kw2 = false) :
    getPriority c = i := by
  simp only [getPriority]
  by_cases hn : c.name.getD "" = ""
  · exfalso
    rw [hn] at h2
    have hmem : kw ∈ priorityOrder := List.getElem?_mem h1
    rw [show pyLower "" = "" from rfl,
      priorityOrder_no_empty_match kw hmem] at h2
    exact Bool.false_ne_true h2
  · rw [if_neg hn, firstKeywordIdx_eq_some _ _ i kw h1 h2 h3]

theorem priorityLE_trans :
    ∀ a b c, priorityLE a b → priorityLE b c → priorityLE a c := by
  intro a b c h1 h2
  simp only [priorityLE, decide_eq_true_eq] at h1 h2 ⊢
  omega

theorem priorityLE_total : ∀ a b, priorityLE a b || priorityLE b a := by
  intro a b
  simp only [priorityLE, Bool.or_eq_true, decide_eq_true_eq]
  omega

theorem mergeSort_filter_priority (l : List Contract) (p : Nat) :
    (l.mergeSort priorityLE).filter (fun c => getPriority c == p) =
      l.filter (fun c => getPriority c == p) := by
  have hsub : List.Sublist (l.filter (fun c => getPriority c == p)) l :=
    List.filter_sublist l
  have hpw : (l.filter (fun c => getPriority c == p)).Pairwise
      (fun a b => priorityLE a b = true) := by
    apply List.pairwise_of_forall_mem_list
    intro a ha b hb
    have ha2 := (List.mem_filter.mp ha).2
    have hb2 := (List.mem_filter.mp hb).2
    simp only [beq_iff_eq] at ha2 hb2
    simp [priorityLE, ha2, hb2]
  have hs := List.sublist_mergeSort priorityLE_trans priorityLE_total hpw hsub
  have hs2 := hs.filter (fun c => getPriority c == p)
  rw [List.filter_filter] at hs2
  simp only [Bool.and_self] at hs2
  have hlen : (l.filter (fun c => getPriority c == p)).length =
      ((l.mergeSort priorityLE).filter (fun c => getPriority c == p)).length :=
    (((List.mergeSort_perm l priorityLE).filter _).length_eq).symm
  exact (hs2.eq_of_length hlen).symm

theorem sortCBGD_filter_priority (entries : List Entry) (p : Nat) :
    (sortContractsByGenericDependencies entries).filter
        (fun c => getPriority c == p) =
      (entries.filterMap entryValid).filter (fun c => getPriority c == p) := by
  unfold sortContractsByGenericDependencies
  by_cases h : entries.isEmpty
  · simp [h, List.isEmpty_iff.mp h]
  · simp only [h, Bool.false_eq_true, if_false]
    by_cases h2 : (entries.filterMap entryValid).isEmpty
    · simp [List.isEmpty_iff.mp h2]
    · simp only [h2, Bool.false_eq_true, if_false]
      exact mergeSort_filter_priority _ p

theorem sortCBGD_pairwise (entries : List Entry) :
    (sortContractsByGenericDependencies entries).Pairwise
      (fun a b => priorityLE a b = true) := by
  unfold sortContractsByGenericDependencies
  by_cases h : entries.isEmpty
  · simp [h]
  · simp only [h, Bool.false_eq_true, if_false]
    by_cases h2 : (entries.filterMap entryValid).isEmpty
    · simp [h2]
    · simp only [h2, Bool.false_eq_true, if_false]
      exact List.sorted_mergeSort priorityLE_trans priorityLE_total _

theorem sortContractList_example :
    sortContractList
        [Contract.mk (some "zzz-unrelated") "" "" "",
         Contract.mk (some "all-traits") "" "" "",
         Contract.mk (some "cxd-token") "" "" "",
         Contract.mk (some "dex-factory") "" "" "",
         Contract.mk (some "oracle-aggregator") "" "" ""] =
      [Contract.mk (some "all-traits") "" "" "",
       Contract.mk (some "cxd-token") "" "" "",
       Contract.mk (some "dex-factory") "" "" "",
       Contract.mk (some "oracle-aggregator") "" "" "",
       Contract.mk (some "zzz-unrelated") "" "" ""] := by
  have hperm : (sortContractList
      [Contract.mk (some "zzz-unrelated") "" "" "",
       Contract.mk (some "all-traits") "" "" "",
       Contract.mk (some "cxd-token") "" "" "",
       Contract.mk (some "dex-factory") "" "" "",
       Contract.mk (some "oracle-aggregator") "" "" ""]).Perm
      [Contract.mk (some "zzz-unrelated") "" "" "",
       Contract.mk (some "all-traits") "" "" "",
       Contract.mk (some "cxd-token") "" "" "",
       Contract.mk (some "dex-factory") "" "" "",
       Contract.mk (some "oracle-aggregator") "" "" ""] :=
    sortContractList_perm (by decide)
  refine List.Perm.eq_of_sorted ?_ (sortCBGD_pairwise _) (by decide)
    (hperm.trans (List.isPerm_iff.mp (by decide)))
  intro a b ha hb hab hba
  exact (by decide :
    ∀ a ∈ [Contract.mk (some "zzz-unrelated") "" "" "",
           Contract.mk (some "all-traits") "" "" "",
           Contract.mk (some "cxd-token") "" "" "",
           Contract.mk (some "dex-factory") "" "" "",
           Contract.mk (some "oracle-aggregator") "" "" ""],
     ∀ b ∈ [Contract.mk (some "all-traits") "" "" "",
            Contract.mk (some "cxd-token") "" "" "",
            Contract.mk (some "dex-factory") "" "" "",
            Contract.mk (some "oracle-aggregator") "" "" "",
            Contract.mk (some "zzz-unrelated") "" "" ""],
       priorityLE a b = true → priorityLE b a = true → a = b)
    a (hperm.mem_iff.mp ha) b hb hab hba

/-- C2: the sorter's priority is the index of the first keyword of the
flat priority list occurring in the lowered name, the list's length when
none occurs (sorting such descriptors after every matching one), the sort
is stable (descriptors of equal priority keep their relative input
order), and on the five contracts of the spec's example it produces
exactly the stated order with `zzz-unrelated` last. -/
theorem sorter_priority_stable_spec :
    (∀ c : Contract,
      (∀ kw ∈ priorityOrder,
        strContains (pyLower (c.name.getD "")) kw = false) →
      getPriority c = priorityOrder.length) ∧
    (∀ (c : Contract) (i : Nat) (kw : String),
      priorityOrder[i]? = some kw →
      strContains (pyLower (c.name.getD "")) kw = true →
      (∀ j kw2, j < i → priorityOrder[j]? = some kw2 →
        strContains (pyLower (c.name.getD "")) kw2 = false) →
      getPriority c = i) ∧
    (∀ (entries : List Entry) (p : Nat),
      (sortContractsByGenericDependencies entries).filter
          (fun c => getPriority c == p) =
        (entries.filterMap entryValid).filter (fun c => getPriority c == p)) ∧
    (sortContractList
        [Contract.mk (some "zzz-unrelated") "" "" "",
         Contract.mk (some "all-traits") "" "" "",
         Contract.mk (some "cxd-token") "" "" "",
         Contract.mk (some "dex-factory") "" "" "",
         Contract.mk (some "oracle-aggregator") "" "" ""] =
      [Contract.mk (some "all-traits") "" "" "",
       Contract.mk (some "cxd-token") "" "" "",
       Contract.mk (some "dex-factory") "" "" "",
       Contract.mk (some "oracle-aggregator") "" "" "",
       Contract.mk (some "zzz-unrelated") "" "" ""]) :=
  ⟨getPriority_eq_length_of_no_match, getPriority_eq_first_match,
   sortCBGD_filter_priority, sortContractList_example⟩

/-! ## C3: deployment-mode selection -/

/-- C3: the reconciler's mode is `upgrade` exactly when the remote account
nonce is positive (whatever the local history); else `incremental` exactly
when a local deployment-history record exists; else `full` — for every
combination of local and blockchain status. -/
theorem deployment_mode_spec :
    ∀ (ls : LocalStatus) (bs : BlockchainStatus),
      (determineDeploymentMode ls bs = "upgrade" ↔ bs.account_nonce.getD 0 > 0) ∧
      (determineDeploymentMode ls bs = "incremental" ↔
        bs.account_nonce.getD 0 = 0 ∧ ls.has_local_history = true) ∧
      (determineDeploymentMode ls bs = "full" ↔
        bs.account_nonce.getD 0 = 0 ∧ ls.has_local_history = false) := by
  intro ls bs
  by_cases h : bs.account_nonce.getD 0 > 0
  · cases hl : ls.has_local_history <;>
      simp [determineDeploymentMode, h, hl] <;> omega
  · have h0 : bs.account_nonce.getD 0 = 0 := by omega
    cases hl : ls.has_local_history <;>
      simp [determineDeploymentMode, h, hl, h0]

/-! ## C8: the sorter never raises on malformed input -/

/-- C8: the sorter is total on arbitrary entry lists: `None`, non-dict and
nameless entries are filtered out before sorting, the output is exactly
(a permutation of) the valid descriptors, and an all-invalid or empty
input yields the empty list. -/
theorem sorter_filters_malformed :
    ∀ entries : List Entry,
      (sortContractsByGenericDependencies entries).Perm
          (entries.filterMap entryValid) ∧
      (∀ c ∈ sortContractsByGenericDependencies entries,
        ∃ e ∈ entries, entryValid e = some c) ∧
      ((∀ e ∈ entries, entryValid e = none) →
        sortContractsByGenericDependencies entries = []) := by
  intro entries
  refine ⟨sortCBGD_perm entries, ?_, ?_⟩
  · intro c hc
    exact List.mem_filterMap.mp ((sortCBGD_perm entries).mem_iff.mp hc)
  · intro h
    have hp := sortCBGD_perm entries
    rw [List.filterMap_eq_nil_iff.mpr h] at hp
    exact List.perm_nil.mp hp

/-! ## C4: skip and deploy sets -/

theorem mem_getContractsToSkip (ls : LocalStatus) (bs : BlockchainStatus)
    (x : Option String) :
    x ∈ getContractsToSkip ls bs ↔
      ((∃ n ∈ bs.deployed_contracts.getD [], some n = x) ∨
       (∃ m ∈ ls.manifests, ∃ c ∈ m.successful.getD [], c.name = x)) := by
  unfold getContractsToSkip
  simp only [mem_manifests_fold, mem_foldl_pySetAdd, List.not_mem_nil,
    false_or]

theorem mem_getContractsToDeploy (cachedContracts : List Contract)
    (ls : LocalStatus) (bs : BlockchainStatus) (x : Option String) :
    x ∈ getContractsToDeploy cachedContracts ls bs ↔
      ((∃ c ∈ cachedContracts, c.name = x) ∧
        x ∉ getContractsToSkip ls bs) := by
  unfold getContractsToDeploy
  rw [List.mem_filter]
  simp only [mem_foldl_pySetAdd, List.not_mem_nil, false_or,
    Bool.not_eq_true', List.elem_eq_mem, decide_eq_false_iff_not]

/-- C4: the skip set is exactly the union of the remote snapshot's
deployed-contract names and the names marked successful in the local
manifests; the deploy set is exactly the discovered names minus the skip
set; and on the spec's example the two sets come out as stated. -/
theorem skip_and_deploy_sets_spec :
    (∀ (ls : LocalStatus) (bs : BlockchainStatus) (x : Option String),
      x ∈ getContractsToSkip ls bs ↔
        ((∃ n ∈ bs.deployed_contracts.getD [], some n = x) ∨
         (∃ m ∈ ls.manifests, ∃ c ∈ m.successful.getD [], c.name = x))) ∧
    (∀ (cachedContracts : List Contract) (ls : LocalStatus)
        (bs : BlockchainStatus) (x : Option String),
      x ∈ getContractsToDeploy cachedContracts ls bs ↔
        ((∃ c ∈ cachedContracts, c.name = x) ∧
          x ∉ getContractsToSkip ls bs)) ∧
    (getContractsToSkip
        ⟨true, [⟨"deployment/manifest.json",
          some [⟨some "cxd-token", some "0xabc123"⟩]⟩]⟩
        ⟨some 0, some ["all-traits"]⟩ =
      [some "all-traits", some "cxd-token"] ∧
     getContractsToDeploy
        [⟨some "all-traits", "", "", ""⟩, ⟨some "cxd-token", "", "", ""⟩,
         ⟨some "dex-factory", "", "", ""⟩]
        ⟨true, [⟨"deployment/manifest.json",
          some [⟨some "cxd-token", some "0xabc123"⟩]⟩]⟩
        ⟨some 0, some ["all-traits"]⟩ = [some "dex-factory"]) :=
  ⟨mem_getContractsToSkip, mem_getContractsToDeploy, by decide, by decide⟩

/-! ## C5: only upgrade mode filters the plan -/

/-- C5: in the generated plan the skip set is subtracted from the contract
list exactly when the mode is `upgrade`; under any other mode every
discovered contract stays in the plan's filtered list (the sort only
permutes it). -/
theorem plan_filters_only_in_upgrade :
    ∀ (contracts : List Contract) (analysis : DeploymentAnalysis),
      (∀ c ∈ contracts, entryValid (Entry.dict c) = some c) →
      ((analysis.deployment_mode = "upgrade" →
        ((generateGenericDeploymentPlan contracts analysis).filtered_contracts).Perm
          (contracts.filter
            (fun c => !(analysis.contracts_to_skip.contains c.name)))) ∧
       (analysis.deployment_mode ≠ "upgrade" →
        ((generateGenericDeploymentPlan contracts analysis).filtered_contracts).Perm
          contracts)) := by
  intro contracts analysis h
  constructor
  · intro hm
    have heq : (generateGenericDeploymentPlan contracts analysis).filtered_contracts =
        sortContractList (contracts.filter
          (fun c => !(analysis.contracts_to_skip.contains c.name))) := by
      simp [generateGenericDeploymentPlan, hm]
    rw [heq]
    exact sortContractList_perm (fun c hc => h c (List.mem_filter.mp hc).1)
  · intro hm
    have heq : (generateGenericDeploymentPlan contracts analysis).filtered_contracts =
        sortContractList contracts := by
      simp [generateGenericDeploymentPlan, hm]
    rw [heq]
    exact sortContractList_perm h

/-- Witness for C5 at a concrete input: a one-contract project in `full`
mode keeps its contract in the plan. -/
theorem plan_filters_only_in_upgrade_witness :
    ((generateGenericDeploymentPlan [Contract.mk (some "all-traits") "" "" ""]
        ⟨"full", [some "all-traits"], []⟩).filtered_contracts).Perm
      [Contract.mk (some "all-traits") "" "" ""] :=
  (plan_filters_only_in_upgrade [Contract.mk (some "all-traits") "" "" ""]
    ⟨"full", [some "all-traits"], []⟩ (by decide)).2 (by decide)

/-! ## C6: deduplication across discovery strategies -/

theorem cgcd_eq (clar : List Contract) (files : List String)
    (manifests : List ManifestData) :
    comprehensiveGenericContractDetection clar files manifests =
      sortContractList (categorizeContracts
        ((clar ++ (genericDirectoryScan files).filter
            (fun c => !((clar.map (·.name)).contains c.name))) ++
         (scanProjectStructures files).filter
            (fun c => !(((clar ++ (genericDirectoryScan files).filter
                (fun c => !((clar.map (·.name)).contains c.name))).map
                  (·.name)).contains c.name)))) := rfl

theorem countP_sortContractList_le (l : List Contract) (P : Contract → Bool) :
    (sortContractList l).countP P ≤ l.countP P := by
  rw [sortContractList, (sortCBGD_perm (l.map Entry.dict)).countP_eq,
    List.filterMap_map]
  exact (filterMap_sublist_of_none_or_self (entryValid ∘ Entry.dict)
    (fun a => entryValid_dict_none_or_self a) l).countP_le _

theorem countP_sortContractList_eq (l : List Contract) (P : Contract → Bool) :
    (sortContractList l).countP P =
      ((l.map Entry.dict).filterMap entryValid).countP P :=
  (sortCBGD_perm (l.map Entry.dict)).countP_eq P

theorem countP_categorize_name (l : List Contract) (n : Option String) :
    (categorizeContracts l).countP (fun c => c.name == n) =
      l.countP (fun c => c.name == n) := by
  rw [categorizeContracts, List.countP_map]
  apply List.countP_congr
  intro c _
  obtain ⟨nm, pa, so, ca⟩ := c
  by_cases h : ca = "" <;> simp [h, Function.comp]

theorem countName_contains_of_pos {l : List Contract} {n : Option String}
    (h : 0 < l.countP (fun c => c.name == n)) :
    (l.map (·.name)).contains n = true := by
  rw [List.countP_pos_iff] at h
  obtain ⟨c, hc, hbeq⟩ := h
  have hn : c.name = n := by simpa using hbeq
  simp only [List.elem_eq_mem, decide_eq_true_eq, List.mem_map]
  exact ⟨c, hc, hn⟩

theorem countName_eq_zero_of_not_contains {l : List Contract}
    {n : Option String} (h : ¬ ((l.map (·.name)).contains n = true)) :
    l.countP (fun c => c.name == n) = 0 := by
  by_contra hne
  exact h (countName_contains_of_pos (Nat.pos_of_ne_zero hne))

theorem countName_filter_contains_eq_zero {names : List (Option String)}
    {n : Option String} (h : names.contains n = true) (l : List Contract) :
    (l.filter (fun c => !(names.contains c.name))).countP
      (fun c => c.name == n) = 0 := by
  rw [List.countP_eq_zero]
  intro c hc hbeq
  have hn : c.name = n := by simpa using hbeq
  have h2 := (List.mem_filter.mp hc).2
  rw [hn, h] at h2
  simp at h2

theorem contains_map_append_left {l l2 : List Contract} {n : Option String}
    (h : (l.map (·.name)).contains n = true) :
    ((l ++ l2).map (·.name)).contains n = true := by
  simp only [List.elem_eq_mem, decide_eq_true_eq, List.map_append,
    List.mem_append] at h ⊢
  exact Or.inl h

theorem countName_dedup_append (clar D P : List Contract) (n : Option String)
    (h1 : clar.countP (fun c => c.name == n) ≤ 1)
    (h2 : D.countP (fun c => c.name == n) ≤ 1)
    (h3 : P.countP (fun c => c.name == n) ≤ 1) :
    ((clar ++ D.filter (fun c => !((clar.map (·.name)).contains c.name))) ++
      P.filter (fun c =>
        !(((clar ++ D.filter (fun c =>
            !((clar.map (·.name)).contains c.name))).map
              (·.name)).contains c.name))).countP
      (fun c => c.name == n) ≤ 1 := by
  simp only [List.countP_append]
  by_cases hc : (clar.map (·.name)).contains n = true
  · rw [countName_filter_contains_eq_zero hc D,
      countName_filter_contains_eq_zero (contains_map_append_left hc) P]
    omega
  · have hz : clar.countP (fun c => c.name == n) = 0 :=
      countName_eq_zero_of_not_contains hc
    by_cases hc2 : (((clar ++ D.filter (fun c =>
        !((clar.map (·.name)).contains c.name))).map (·.name)).contains n) = true
    · rw [countName_filter_contains_eq_zero hc2 P]
      have hD : (D.filter (fun c =>
          !((clar.map (·.name)).contains c.name))).countP
            (fun c => c.name == n) ≤ D.countP (fun c => c.name == n) :=
        (List.filter_sublist D).countP_le _
      omega
    · have hz2 : (clar ++ D.filter (fun c =>
          !((clar.map (·.name)).contains c.name))).countP
            (fun c => c.name == n) = 0 :=
        countName_eq_zero_of_not_contains hc2
      rw [List.countP_append] at hz2
      have hP : (P.filter (fun c =>
          !(((clar ++ D.filter (fun c =>
              !((clar.map (·.name)).contains c.name))).map
                (·.name)).contains c.name))).countP
            (fun c => c.name == n) ≤ P.countP (fun c => c.name == n) :=
        (List.filter_sublist P).countP_le _
      omega

theorem sortContractList_eq_singleton {l : List Contract} {c : Contract}
    (hl : l = [c]) (hv : entryValid (Entry.dict c) = some c) :
    sortContractList l = [c] := by
  subst hl
  refine List.perm_singleton.mp (sortContractList_perm ?_)
  intro x hx
  rw [List.mem_singleton.mp hx]
  exact hv

/-- C6 (amended): deduplication happens only across strategies — each
strategy's findings are filtered against the names collected by earlier
strategies, so when two strategies report the same name the first
strategy's descriptor survives alone (concretely, a `utils` declared in
Clarinet.toml suppresses the directory scan's `utils`); but a name appears
at most once in the pipeline's output only when each single strategy
reports it at most once. -/
theorem discovery_dedup_cross_strategy :
    (∀ (clar : List Contract) (files : List String)
        (manifests : List ManifestData) (n : Option String),
      clar.countP (fun c => c.name == n) ≤ 1 →
      (genericDirectoryScan files).countP (fun c => c.name == n) ≤ 1 →
      (scanProjectStructures files).countP (fun c => c.name == n) ≤ 1 →
      (comprehensiveGenericContractDetection clar files manifests).countP
        (fun c => c.name == n) ≤ 1) ∧
    (comprehensiveGenericContractDetection
        [Contract.mk (some "utils") "contracts/utils.clar" "clarinet_toml"
          "utilities"]
        ["contracts/utils.clar"] [] =
      [Contract.mk (some "utils") "contracts/utils.clar" "clarinet_toml"
        "utilities"]) := by
  constructor
  · intro clar files manifests n h1 h2 h3
    rw [cgcd_eq]
    refine le_trans (countP_sortContractList_le _ _) ?_
    rw [countP_categorize_name]
    exact countName_dedup_append clar _ _ n h1 h2 h3
  · rw [cgcd_eq]
    refine sortContractList_eq_singleton ?_ ?_ <;> decide

/-- C6 counterexample: in a project whose only file is
`contracts/utils.clar` and with no Clarinet.toml, the directory scan's
overlapping glob patterns (`contracts/**/*.clar` and `**/*.clar`) both
report `utils`, the cross-strategy filter does not deduplicate within one
strategy, and the pipeline's output contains TWO descriptors named
`utils` — refuting "each contract name appears at most once". -/
theorem discovery_dedup_counterexample :
    ¬((comprehensiveGenericContractDetection [] ["contracts/utils.clar"]
        []).countP (fun c => c.name == some "utils") ≤ 1) := by
  rw [cgcd_eq, countP_sortContractList_eq]
  decide

/-! ## C7: deployment manifests add no descriptors -/

/-- C7: the discovery pipeline's output does not depend on the
deployment-manifest artifacts at all — they are parsed for reporting only
and never contribute a contract descriptor. -/
theorem manifest_crossref_no_new_descriptors :
    ∀ (clar : List Contract) (files : List String)
      (m1 m2 : List ManifestData),
      comprehensiveGenericContractDetection clar files m1 =
        comprehensiveGenericContractDetection clar files m2 := by
  intro clar files m1 m2
  rfl

/-! ## C9: content hashing never raises -/

theorem hexJoin_length (l : List Nat) :
    ((l.map hexByte).flatten).length = 2 * l.length := by
  induction l with
  | nil => simp
  | cons a t ih => simp [hexByte, ih]; omega

theorem md5DigestBytes_length (msg : List Nat) :
    (md5DigestBytes msg).length = 16 := by
  simp [md5DigestBytes, wordLEBytes]

theorem md5Hex_length (msg : List Nat) : (md5Hex msg).length = 32 := by
  have h : (md5Hex msg).length = ((md5DigestBytes msg).map hexByte).flatten.length := rfl
  rw [h, hexJoin_length, md5DigestBytes_length]

set_option maxRecDepth 100000 in
/-- The MD5 embedding agrees with the RFC 1321 reference digests for the
empty message and for `b"abc"`. -/
theorem md5Hex_reference_vectors :
    md5Hex [] = "d41d8cd98f00b204e9800998ecf8427e" ∧
    md5Hex [97, 98, 99] = "900150983cd24fb0d6963f7d28e17f72" := by
  exact ⟨by decide, by decide⟩

/-- C9: `_calculate_file_hash` is total — a failed read yields the
sentinel `"unknown"`, and a successful read yields the MD5 hex digest of
the file's bytes, which always has the fixed length 32. -/
theorem file_hash_total_spec :
    (calculateFileHash none = "unknown") ∧
    (∀ file_bytes : List Nat,
      calculateFileHash (some file_bytes) = md5Hex file_bytes ∧
      (calculateFileHash (some file_bytes)).length = 32) := by
  exact ⟨rfl, fun file_bytes => ⟨rfl, md5Hex_length file_bytes⟩⟩

/-! ## C10: the manual Clarinet.toml analysis returns None -/

/-- C10: `_analyze_clarinet_toml_manually` builds an analysis dict but has
no return statement, so it returns `None` on every input; consequently,
when the file exists and neither TOML library is importable,
`_analyze_clarinet_toml` also returns `None`. -/
theorem manual_toml_analysis_returns_none :
    (∀ content : String, analyzeClarinetTomlManually content = none) ∧
    (∀ (toml_data : TomlData) (raw_content : String),
      analyzeClarinetToml true false toml_data raw_content = none) := by
  exact ⟨fun _ => rfl, fun _ _ => rfl⟩

end StacksOrbit
